import Mathlib

/-!
Verification of the parsing-graph PDF pipeline (backend/langgraph) against its
natural-language specification.

The Python sources are shallowly embedded:
* Python `str` values are embedded as `List Char` (a Python string is a sequence
  of code points); `String` wrappers are provided where convenient.
  `str.lower`/`str.strip` are embedded for their ASCII behaviour (the characters
  the repository actually manipulates are Korean -- unaffected by lowering -- and
  ASCII); this is noted at each definition.
* the `ParserState` TypedDict becomes a structure; fields that are absent until
  some node sets them become `Option` fields (`state["total_pages"]` on an absent
  key raises `KeyError`, which the embedding models explicitly).
* every external call (MCP PDF services, the LLM chat endpoints) is an oracle
  recorded in a `Services` structure; a call that raises, or whose JSON reply
  fails to decode, is an `Except.error` carrying the exception text.
* timestamps, log strings and file-system writes are elided: they never feed back
  into control flow.  Floating point confidences are likewise elided (only logged).
-/

/-! ## Basic character-list helpers (Python `str` operations) -/

/-- Python `c.isspace()` for the ASCII whitespace actually handled by
`str.strip()` on the repository's data (space, tab, CR, LF). -/
def pySpace (c : Char) : Bool := c = ' ' || c = '\t' || c = '\r' || c = '\n'

/-- Python `s.strip()`: remove leading and trailing whitespace. -/
def trimChars (s : List Char) : List Char :=
  ((s.dropWhile pySpace).reverse.dropWhile pySpace).reverse

/-- Python `s.lower()`, restricted to ASCII letters (the only case-mapped
characters appearing in the repository's inputs). -/
def lowerStr (s : List Char) : List Char := s.map Char.toLower

/-- Boolean prefix test (`s.startswith(pat)`). -/
def isPrefixB : List Char → List Char → Bool
  | [], _ => true
  | _ :: _, [] => false
  | a :: as, b :: bs => a = b && isPrefixB as bs

/-- Python `s.find(pat)`: index of the first occurrence of `pat` in `s`,
`none` when `pat` does not occur (Python returns `-1`). -/
def substrPos : List Char → List Char → Option Nat
  | [], pat => if isPrefixB pat [] then some 0 else none
  | c :: t, pat =>
    if isPrefixB pat (c :: t) then some 0
    else (substrPos t pat).map (fun n => n + 1)

/-- Python `pat in s` (substring containment). -/
def containsSub (s pat : List Char) : Bool := (substrPos s pat).isSome

/-- Auxiliary for `countSubstr`; fuel bounds the scan by the length of `s`. -/
def countSubstrAux (pat : List Char) : Nat → List Char → Nat
  | 0, _ => 0
  | _, [] => 0
  | fuel + 1, c :: rest =>
    if isPrefixB pat (c :: rest) then
      1 + countSubstrAux pat fuel ((c :: rest).drop pat.length)
    else countSubstrAux pat fuel rest

/-- Python `s.count(pat)` for non-empty `pat`: number of non-overlapping
occurrences, scanning left to right. -/
def countSubstr (pat s : List Char) : Nat := countSubstrAux pat s.length s

/-! ## difflib.SequenceMatcher(None, a, b).find_longest_match(0, len a, 0, len b)

Embedded from CPython's `difflib` (the stdlib code the repository calls with
`isjunk=None` and the default `autojunk=True`).  With `isjunk=None` the
`bjunk` set is empty, so the two junk-extension loops of `find_longest_match`
never fire and are omitted; the autojunk "popular element" purge of `b2j`
(elements of `b` occurring more than `len(b)//100 + 1` times when
`len(b) >= 200`) is embedded faithfully. -/

structure DMatch where
  a : Nat
  b : Nat
  size : Nat
deriving DecidableEq

/-- `b2j`: map each character of `b` to the ascending list of its indices
(association list in first-occurrence order, mirroring dict insertion order). -/
def b2jInsert (m : List (Char × List Nat)) (c : Char) (i : Nat) :
    List (Char × List Nat) :=
  match m with
  | [] => [(c, [i])]
  | (d, idxs) :: rest =>
    if d = c then (d, idxs ++ [i]) :: rest else (d, idxs) :: b2jInsert rest c i

def b2jBuildAux (m : List (Char × List Nat)) (i : Nat) :
    List Char → List (Char × List Nat)
  | [] => m
  | c :: rest => b2jBuildAux (b2jInsert m c i) (i + 1) rest

def b2jBuild (b : List Char) : List (Char × List Nat) := b2jBuildAux [] 0 b

/-- autojunk: when `len(b) >= 200`, purge characters occurring more than
`len(b)//100 + 1` times from `b2j` (they can no longer seed a match). -/
def purgePopular (n : Nat) (m : List (Char × List Nat)) :
    List (Char × List Nat) :=
  if 200 ≤ n then m.filter (fun e => e.2.length ≤ n / 100 + 1) else m

def lookupB2j (m : List (Char × List Nat)) (c : Char) : List Nat :=
  ((m.find? (fun e => e.1 = c)).map (fun e => e.2)).getD []

/-- Inner loop of the DP over `j in b2j[a[i]]`: update the new `j2len` row and
the running best (updated only on a strictly larger size, so the earliest
maximal match in `(i, j)` order is kept, as in CPython). -/
def dpInner (i : Nat) (j2len : Nat → Nat) :
    List Nat → (Nat → Nat) → DMatch → (Nat → Nat) × DMatch
  | [], nj, best => (nj, best)
  | j :: js, nj, best =>
    let k := (if j = 0 then 0 else j2len (j - 1)) + 1
    let nj2 := fun x => if x = j then k else nj x
    let best2 := if best.size < k then ⟨i + 1 - k, j + 1 - k, k⟩ else best
    dpInner i j2len js nj2 best2

def dpRows (b2j : List (Char × List Nat)) :
    List (Nat × Char) → (Nat → Nat) → DMatch → DMatch
  | [], _, best => best
  | (i, c) :: rest, j2len, best =>
    let p := dpInner i j2len (lookupB2j b2j c) (fun _ => 0) best
    dpRows b2j rest p.1 p.2

/-- Extend the best match towards the left while the adjacent characters agree
(`bjunk` is empty, so the non-junk guard is vacuous). -/
def extendLeft (a b : List Char) : Nat → Nat → Nat → Nat × Nat × Nat
  | bi + 1, bj + 1, size =>
    match a.get? bi, b.get? bj with
    | some x, some y =>
      if x = y then extendLeft a b bi bj (size + 1) else (bi + 1, bj + 1, size)
    | _, _ => (bi + 1, bj + 1, size)
  | bi, bj, size => (bi, bj, size)

def extendRightAux (a b : List Char) (bi bj : Nat) : Nat → Nat → Nat
  | 0, size => size
  | fuel + 1, size =>
    match a.get? (bi + size), b.get? (bj + size) with
    | some x, some y => if x = y then extendRightAux a b bi bj fuel (size + 1) else size
    | _, _ => size

def extendRight (a b : List Char) (bi bj size : Nat) : Nat :=
  extendRightAux a b bi bj (a.length + 1) size

/-- CPython `SequenceMatcher(None, a, b).find_longest_match(0, len a, 0, len b)`. -/
def find_longest_match (a b : List Char) : DMatch :=
  let b2j := purgePopular b.length (b2jBuild b)
  let d := dpRows b2j a.enum (fun _ => 0) ⟨0, 0, 0⟩
  let e := extendLeft a b d.a d.b d.size
  ⟨e.1, e.2.1, extendRight a b e.1 e.2.1 e.2.2⟩

/-! ## extract_content_after_title (nodes.py lines 461-492) -/

/-- `extract_content_after_title` over character lists.  The fuzzy threshold
`int(len(title) * 0.8)` equals `4 * len(title) / 5` in integer arithmetic:
`0.8` rounds up as a double, so `L * 0.8` never falls below the exact product
and `int` truncation yields exactly `floor(0.8 * L)`. -/
def extractChars (full_content title : List Char) : List Char :=
  if title = [] ∨ full_content = [] then full_content
  else
    match substrPos full_content title with
    | some pos => trimChars (full_content.drop (pos + title.length))
    | none =>
      let m := find_longest_match (lowerStr title) (lowerStr full_content)
      if max 3 (4 * title.length / 5) < m.size then
        trimChars (full_content.drop (m.b + m.size))
      else full_content

/-- `extract_content_after_title(full_content, title)` (nodes.py line 461). -/
def extract_content_after_title (full_content title : String) : String :=
  String.mk (extractChars full_content.data title.data)

/-! ## Spec-modelled comparison definition for the fuzzy branch

The specification words the fuzzy fallback as "the longest common contiguous
substring between the lower-cased title and lower-cased content".  This
definition follows the spec's words (not the source) and exists only to compare
the source's `find_longest_match` against it. -/

def commonPrefixLen : List Char → List Char → Nat
  | a :: as, b :: bs => if a = b then 1 + commonPrefixLen as bs else 0
  | _, _ => 0

/-- Modelled from the spec: the length of the longest common contiguous
substring of `a` and `b` (maximal common prefix length over all suffix pairs). -/
def specLcsLen (a b : List Char) : Nat :=
  (a.tails.map fun ta =>
    ((b.tails.map fun tb => commonPrefixLen ta tb).foldr max 0)).foldr max 0

/-! ## Lemmas about the string helpers -/

theorem isPrefixB_iff (pat : List Char) :
    ∀ s, isPrefixB pat s = true ↔ ∃ t, s = pat ++ t := by
  induction pat with
  | nil =>
    intro s
    cases s <;> simp [isPrefixB]
  | cons a as ih =>
    intro s
    cases s with
    | nil =>
      simp [isPrefixB]
    | cons b bs =>
      simp only [isPrefixB, Bool.and_eq_true, decide_eq_true_eq, ih bs,
        List.cons_append, List.cons.injEq]
      constructor
      · rintro ⟨rfl, t, rfl⟩
        exact ⟨t, rfl, rfl⟩
      · rintro ⟨t, rfl, rfl⟩
        exact ⟨rfl, t, rfl⟩

theorem substrPos_some (pat : List Char) :
    ∀ (s : List Char) (n : Nat), substrPos s pat = some n →
      (∃ rest, s.drop n = pat ++ rest) ∧
      ∀ m, m < n → ¬∃ rest, s.drop m = pat ++ rest := by
  intro s
  induction s with
  | nil =>
    intro n h
    simp only [substrPos] at h
    by_cases hp : isPrefixB pat [] = true
    · rw [if_pos hp] at h
      obtain rfl : n = 0 := by simpa using h.symm
      exact ⟨by simpa using (isPrefixB_iff pat []).mp hp, by omega⟩
    · rw [if_neg hp] at h
      cases h
  | cons c t ih =>
    intro n h
    simp only [substrPos] at h
    by_cases hp : isPrefixB pat (c :: t) = true
    · rw [if_pos hp] at h
      obtain rfl : n = 0 := by simpa using h.symm
      exact ⟨by simpa using (isPrefixB_iff pat (c :: t)).mp hp, by omega⟩
    · rw [if_neg hp] at h
      obtain ⟨k, hk, rfl⟩ : ∃ k, substrPos t pat = some k ∧ n = k + 1 := by
        cases hsub : substrPos t pat with
        | none => rw [hsub] at h; cases h
        | some k =>
          rw [hsub] at h
          exact ⟨k, rfl, by simpa using h.symm⟩
      obtain ⟨⟨rest, hrest⟩, hleast⟩ := ih k hk
      refine ⟨⟨rest, by simpa using hrest⟩, ?_⟩
      intro m hm
      cases m with
      | zero =>
        rintro ⟨rest2, hr2⟩
        exact hp ((isPrefixB_iff pat (c :: t)).mpr ⟨rest2, by simpa using hr2⟩)
      | succ m2 =>
        intro ⟨rest2, hr2⟩
        exact hleast m2 (by omega) ⟨rest2, by simpa using hr2⟩

theorem substrPos_none (pat : List Char) :
    ∀ s : List Char, substrPos s pat = none →
      ∀ m, ¬∃ rest, s.drop m = pat ++ rest := by
  intro s
  induction s with
  | nil =>
    intro h m
    rintro ⟨rest, hr⟩
    simp only [substrPos] at h
    by_cases hp : isPrefixB pat [] = true
    · rw [if_pos hp] at h; cases h
    · exact hp ((isPrefixB_iff pat ([] : List Char)).mpr
        ⟨rest, by simpa [List.drop_nil] using hr⟩)
  | cons c t ih =>
    intro h m
    simp only [substrPos] at h
    by_cases hp : isPrefixB pat (c :: t) = true
    · rw [if_pos hp] at h; cases h
    · rw [if_neg hp] at h
      have hnone : substrPos t pat = none := by
        cases hsub : substrPos t pat with
        | none => rfl
        | some k => rw [hsub] at h; cases h
      cases m with
      | zero =>
        rintro ⟨rest, hr⟩
        exact hp ((isPrefixB_iff pat (c :: t)).mpr ⟨rest, by simpa using hr⟩)
      | succ m2 =>
        rintro ⟨rest, hr⟩
        exact ih hnone m2 ⟨rest, by simpa using hr⟩

theorem substrPos_none_no_split (pat s : List Char)
    (h : substrPos s pat = none) :
    ∀ pre post, s ≠ pre ++ pat ++ post := by
  intro pre post heq
  refine substrPos_none pat s h pre.length ⟨post, ?_⟩
  subst heq
  rw [List.append_assoc, List.drop_left]

theorem trimChars_length_le (l : List Char) : (trimChars l).length ≤ l.length := by
  unfold trimChars
  calc ((l.dropWhile pySpace).reverse.dropWhile pySpace).reverse.length
      = ((l.dropWhile pySpace).reverse.dropWhile pySpace).length := by
        rw [List.length_reverse]
    _ ≤ (l.dropWhile pySpace).reverse.length := (List.dropWhile_sublist _).length_le
    _ = (l.dropWhile pySpace).length := by rw [List.length_reverse]
    _ ≤ l.length := (List.dropWhile_sublist _).length_le

/-! ## Claim C3 and C10: behaviour of extract_content_after_title -/

/-- C3 (amended): for every title and content, body extraction returns
(0) the content unmodified (untrimmed) when the title or the content is the
empty string (the source's falsiness guard); otherwise (a) when the title
occurs in the content (`substrPos` finding the first occurrence: the title is
a prefix of the suffix at that index and at no earlier index), the content
strictly after that first occurrence, trimmed; (b) otherwise, when difflib's
`find_longest_match` on the lower-cased strings (longest-common-substring
search restricted by autojunk seeding) returns a match longer than
`max 3 ⌊0.8 * title length⌋`, the content strictly after that match end,
trimmed; (c) otherwise the content unmodified. -/
theorem extract_content_after_title_spec (content title : List Char) :
    ((title = [] ∨ content = []) → extractChars content title = content) ∧
    (title ≠ [] → content ≠ [] →
      (∀ n, substrPos content title = some n →
        (∃ rest, content.drop n = title ++ rest) ∧
        (∀ m, m < n → ¬∃ rest, content.drop m = title ++ rest) ∧
        extractChars content title
          = trimChars (content.drop (n + title.length))) ∧
      (substrPos content title = none →
        (∀ pre post, content ≠ pre ++ title ++ post) ∧
        (max 3 (4 * title.length / 5) <
            (find_longest_match (lowerStr title) (lowerStr content)).size →
          extractChars content title =
            trimChars (content.drop
              ((find_longest_match (lowerStr title) (lowerStr content)).b +
                (find_longest_match (lowerStr title) (lowerStr content)).size))) ∧
        (¬ max 3 (4 * title.length / 5) <
            (find_longest_match (lowerStr title) (lowerStr content)).size →
          extractChars content title = content))) ∧
    extract_content_after_title (String.mk content) (String.mk title) =
      String.mk (extractChars content title) := by
  refine ⟨?_, ?_, rfl⟩
  · intro h
    unfold extractChars
    rw [if_pos h]
  · intro ht hc
    constructor
    · intro n hn
      obtain ⟨h1, h2⟩ := substrPos_some title content n hn
      refine ⟨h1, h2, ?_⟩
      unfold extractChars
      rw [if_neg (by simp [ht, hc]), hn]
    · intro hn
      refine ⟨substrPos_none_no_split title content hn, ?_, ?_⟩
      · intro hlt
        unfold extractChars
        rw [if_neg (by simp [ht, hc]), hn]
        simp only [if_pos hlt]
      · intro hlt
        unfold extractChars
        rw [if_neg (by simp [ht, hc]), hn]
        simp only [if_neg hlt]

def contentK : List Char := "...제1조 보험계약의 성립 본문내용...".data

def titleK : List Char := "제1조 보험계약의 성립".data

set_option maxRecDepth 20000 in
/-- C3 witness: the spec's own example, via the exact-match clause of the
theorem: the title occurs first at index 3 and the extracted body is the
trimmed text after it. -/
theorem extract_content_after_title_spec_witness :
    contentK ≠ [] ∧ titleK ≠ [] ∧ substrPos contentK titleK = some 3 ∧
    extract_content_after_title (String.mk contentK) (String.mk titleK) =
      "본문내용..." := by
  refine ⟨by decide, by decide, by decide, ?_⟩
  have h := extract_content_after_title_spec contentK titleK
  have h1 := ((h.2.1 (by decide) (by decide)).1 3 (by decide)).2.2
  rw [h.2.2, h1]
  decide

def contentX : List Char := 'z' :: List.replicate 199 'a'

def titleX : List Char := List.replicate 10 'A'

set_option maxRecDepth 20000 in
/-- C3 counterexample: with `titleX` ten upper-case `A`s and `contentX` a `z`
followed by 199 `a`s, the title does not occur exactly, the longest common
contiguous substring of the lower-cased strings has length 10, which exceeds
the threshold `max 3 ⌊0.8 * 10⌋ = 8` — so the claim requires the trimmed
content after the match end (which necessarily drops at least the 10 matched
characters) — yet the code returns the full content unchanged: difflib's
autojunk purges `a` (199 occurrences > 200/100 + 1) from the match seeds, so
`find_longest_match` returns size 0. -/
theorem extract_content_after_title_counterexample :
    substrPos contentX titleX = none ∧
    specLcsLen (lowerStr titleX) (lowerStr contentX) = 10 ∧
    max 3 (4 * titleX.length / 5) < 10 ∧
    (find_longest_match (lowerStr titleX) (lowerStr contentX)).size = 0 ∧
    extractChars contentX titleX = contentX ∧
    ∀ p, 10 ≤ p → trimChars (contentX.drop p) ≠ contentX := by
  refine ⟨by decide, by decide, by decide, by decide, by decide, ?_⟩
  intro p hp hEq
  have h1 : (trimChars (contentX.drop p)).length ≤ (contentX.drop p).length :=
    trimChars_length_le _
  have h2 : (contentX.drop p).length = contentX.length - p := List.length_drop p contentX
  have h3 : contentX.length = 200 := by decide
  rw [hEq, h2, h3] at h1
  omega

/-- C10 (confirmed): body extraction is the identity on its content argument
whenever the title or the fetched content is the empty string (the guard
`if not title or not full_content: return full_content` fires, returning the
content untrimmed). -/
theorem extract_content_after_title_empty (content title : String)
    (h : title = "" ∨ content = "") :
    extract_content_after_title content title = content := by
  have hd : title.data = [] ∨ content.data = [] := by
    rcases h with h | h
    · subst h; exact Or.inl rfl
    · subst h; exact Or.inr rfl
  unfold extract_content_after_title extractChars
  rw [if_pos hd]

/-- C10 witness: the identity at concrete inputs, in both the empty-title and
the empty-content case; note `" x "` comes back with its whitespace intact. -/
theorem extract_content_after_title_empty_witness :
    (("" : String) = "" ∨ (" x " : String) = "") ∧
    extract_content_after_title " x " "" = " x " ∧
    extract_content_after_title "" "ab" = "" :=
  ⟨Or.inl rfl, extract_content_after_title_empty " x " "" (Or.inl rfl),
    extract_content_after_title_empty "" "ab" (Or.inr rfl)⟩

/-! ## Outline entries and node_calc_page_end (nodes.py lines 233-274)

An outline entry (`OutlineEntry`): up to three hierarchy levels and two domain
labels, all strings (a Python value that is missing or `None` is embedded as
`""` -- both are falsy in the `or`-chains that read them), plus start/end pages
as integers (`int(...)` conversions in the source). -/

structure TocItem where
  level_1 : String
  level_2 : String
  level_3 : String
  kwan : String
  jo : String
  page_start : Int
  page_end : Int
deriving DecidableEq

/-- Strict comparison used by the stable sort of `node_calc_page_end`
(`sorted(items, key=lambda x: int(x.get("page_start", 0)))`). -/
def itemLt (a b : TocItem) : Bool := a.page_start < b.page_start

/-- Stable insertion: place `x` before the first element not strictly below it
(elements equal on the key that arrived earlier stay in front). -/
def insertBy {α : Type} (lt : α → α → Bool) (x : α) : List α → List α
  | [] => [x]
  | y :: ys => if lt y x then y :: insertBy lt x ys else x :: y :: ys

/-- Stable sort by a strict comparison (extensionally Python's stable
`sorted`). -/
def sortBy {α : Type} (lt : α → α → Bool) : List α → List α
  | [] => []
  | x :: xs => insertBy lt x (sortBy lt xs)

/-- The `page_end` assignment loop of `node_calc_page_end`: every entry but the
last gets `max(0, next_start - 1)`; the last gets `max(0, total_pages - 1)`. -/
def assignEnds : List TocItem → Int → List TocItem
  | [], _ => []
  | [x], total => [{ x with page_end := max 0 (total - 1) }]
  | x :: y :: rest, total =>
    { x with page_end := max 0 (y.page_start - 1) } :: assignEnds (y :: rest) total

/-- `node_calc_page_end`'s calculation: error on an empty entry list (the
source's "계산할 목차 데이터가 없음" guard), otherwise stable-sort by start
page and assign the end pages.  NOTE: the source has no check on
`total_pages`. -/
def calcPageEnd (items : List TocItem) (total : Int) : Except String (List TocItem) :=
  if items = [] then .error "계산할 목차 데이터가 없음"
  else .ok (assignEnds (sortBy itemLt items) total)

/-- Normalize the field written by `assignEnds`, for stating stability
(entries are compared with their `page_end` blanked). -/
def eraseEnd (x : TocItem) : TocItem := { x with page_end := 0 }

/-! ### Lemmas about the stable sort and the end assignment -/

theorem insertBy_length {α : Type} (lt : α → α → Bool) (x : α) :
    ∀ l : List α, (insertBy lt x l).length = l.length + 1 := by
  intro l
  induction l with
  | nil => rfl
  | cons y ys ih =>
    by_cases h : lt y x = true
    · simp [insertBy, h, ih]
    · simp [insertBy, h]

theorem sortBy_length {α : Type} (lt : α → α → Bool) :
    ∀ l : List α, (sortBy lt l).length = l.length := by
  intro l
  induction l with
  | nil => rfl
  | cons x xs ih => simp [sortBy, insertBy_length, ih]

theorem mem_insertBy {α : Type} (lt : α → α → Bool) (x z : α) :
    ∀ l : List α, z ∈ insertBy lt x l ↔ z = x ∨ z ∈ l := by
  intro l
  induction l with
  | nil => simp [insertBy]
  | cons y ys ih =>
    by_cases h : lt y x = true
    · simp only [insertBy, if_pos h, List.mem_cons, ih]
      tauto
    · simp only [insertBy, if_neg h, List.mem_cons]

theorem filter_insertBy_neg {α : Type} (lt : α → α → Bool) (p : α → Bool)
    (x : α) (hpx : p x = false) :
    ∀ l : List α, (insertBy lt x l).filter p = l.filter p := by
  intro l
  induction l with
  | nil => simp [insertBy, hpx]
  | cons y ys ih =>
    by_cases h : lt y x = true
    · simp only [insertBy, if_pos h, List.filter_cons]
      rw [ih]
    · simp [insertBy, if_neg h, List.filter_cons, hpx]

theorem filter_insertBy_pos {α : Type} (lt : α → α → Bool) (p : α → Bool)
    (x : α) (hpx : p x = true) (hlt : ∀ y, p y = true → lt y x = false) :
    ∀ l : List α, (insertBy lt x l).filter p = x :: l.filter p := by
  intro l
  induction l with
  | nil => simp [insertBy, hpx]
  | cons y ys ih =>
    by_cases h : lt y x = true
    · have hpy : p y = false := by
        by_contra hpy
        rw [hlt y (by simpa using hpy)] at h
        cases h
      simp only [insertBy, if_pos h, List.filter_cons, hpy]
      rw [ih]
      simp
    · simp [insertBy, if_neg h, List.filter_cons, hpx]

theorem sortBy_filter_key (k : Int) :
    ∀ l : List TocItem,
      (sortBy itemLt l).filter (fun x => x.page_start == k)
        = l.filter (fun x => x.page_start == k) := by
  intro l
  induction l with
  | nil => rfl
  | cons x xs ih =>
    by_cases hpx : (x.page_start == k) = true
    · have hlt : ∀ y : TocItem, (y.page_start == k) = true → itemLt y x = false := by
        intro y hy
        have hx : x.page_start = k := by simpa using hpx
        have hyk : y.page_start = k := by simpa using hy
        simp [itemLt, hx, hyk]
      rw [sortBy, filter_insertBy_pos itemLt _ x hpx hlt, ih, List.filter_cons]
      simp [hpx]
    · rw [sortBy, filter_insertBy_neg itemLt _ x (by simpa using hpx), ih,
        List.filter_cons]
      simp [hpx]

/-- The non-strict key order established by the sort. -/
def startLe (a b : TocItem) : Prop := a.page_start ≤ b.page_start

theorem pairwise_insertBy (x : TocItem) :
    ∀ l : List TocItem, List.Pairwise startLe l →
      List.Pairwise startLe (insertBy itemLt x l) := by
  intro l
  induction l with
  | nil => intro _; simp [insertBy, List.pairwise_singleton]
  | cons y ys ih =>
    intro h
    obtain ⟨hy, hys⟩ := List.pairwise_cons.mp h
    by_cases hlt : itemLt y x = true
    · rw [insertBy, if_pos hlt]
      refine List.pairwise_cons.mpr ⟨?_, ih hys⟩
      intro z hz
      rcases (mem_insertBy itemLt x z ys).mp hz with rfl | hz2
      · exact le_of_lt (by simpa [itemLt] using hlt)
      · exact hy z hz2
    · rw [insertBy, if_neg hlt]
      have hxy : startLe x y := by
        simp only [itemLt, decide_eq_true_eq] at hlt
        exact le_of_not_lt (by simpa using hlt)
      refine List.pairwise_cons.mpr ⟨?_, h⟩
      intro z hz
      rcases List.mem_cons.mp hz with rfl | hz2
      · exact hxy
      · exact le_trans hxy (hy z hz2)

theorem pairwise_sortBy :
    ∀ l : List TocItem, List.Pairwise startLe (sortBy itemLt l) := by
  intro l
  induction l with
  | nil => exact List.Pairwise.nil
  | cons x xs ih => exact pairwise_insertBy x _ ih

theorem map_eraseEnd_insertBy (x : TocItem) :
    ∀ l : List TocItem,
      (insertBy itemLt x l).map eraseEnd
        = insertBy itemLt (eraseEnd x) (l.map eraseEnd) := by
  intro l
  induction l with
  | nil => rfl
  | cons y ys ih =>
    have hsame : itemLt (eraseEnd y) (eraseEnd x) = itemLt y x := rfl
    by_cases h : itemLt y x = true
    · rw [insertBy, if_pos h]
      simp only [List.map_cons]
      rw [insertBy, hsame, if_pos h, ih]
    · rw [insertBy, if_neg h]
      simp only [List.map_cons]
      rw [insertBy, hsame, if_neg h]

theorem map_eraseEnd_sortBy :
    ∀ l : List TocItem,
      (sortBy itemLt l).map eraseEnd = sortBy itemLt (l.map eraseEnd) := by
  intro l
  induction l with
  | nil => rfl
  | cons x xs ih =>
    rw [sortBy, map_eraseEnd_insertBy, ih]
    rfl

theorem sortBy_eq_self :
    ∀ l : List TocItem, List.Pairwise startLe l → sortBy itemLt l = l := by
  intro l
  induction l with
  | nil => intro _; rfl
  | cons x xs ih =>
    intro h
    obtain ⟨hx, hxs⟩ := List.pairwise_cons.mp h
    rw [sortBy, ih hxs]
    cases xs with
    | nil => rfl
    | cons y ys =>
      have : itemLt y x = false := by
        have := hx y (List.mem_cons_self y ys)
        simp only [itemLt, decide_eq_false_iff_not]
        exact not_lt.mpr this
      rw [insertBy, if_neg (by simp [this])]

theorem assignEnds_shape (y : TocItem) (rest : List TocItem) (total : Int) :
    ∃ e t, assignEnds (y :: rest) total = { y with page_end := e } :: t := by
  cases rest with
  | nil => exact ⟨max 0 (total - 1), [], rfl⟩
  | cons z zs => exact ⟨max 0 (z.page_start - 1), _, rfl⟩

theorem assignEnds_length :
    ∀ (l : List TocItem) (total : Int), (assignEnds l total).length = l.length := by
  intro l
  induction l with
  | nil => intro _; rfl
  | cons x xs ih =>
    intro total
    cases xs with
    | nil => rfl
    | cons y rest => simp [assignEnds, ih total]

theorem assignEnds_map_eraseEnd :
    ∀ (l : List TocItem) (total : Int),
      (assignEnds l total).map eraseEnd = l.map eraseEnd := by
  intro l
  induction l with
  | nil => intro _; rfl
  | cons x xs ih =>
    intro total
    cases xs with
    | nil => rfl
    | cons y rest =>
      simp only [assignEnds, List.map_cons]
      rw [ih total]
      simp [eraseEnd]

theorem pairwise_start_assignEnds (l : List TocItem) (total : Int)
    (h : List.Pairwise startLe l) :
    List.Pairwise startLe (assignEnds l total) := by
  have h2 : List.Pairwise (fun a b => startLe (eraseEnd a) (eraseEnd b)) l := h
  have h3 : List.Pairwise startLe (List.map eraseEnd l) :=
    (@List.pairwise_map TocItem TocItem eraseEnd startLe l).mpr h2
  rw [← assignEnds_map_eraseEnd l total] at h3
  exact (@List.pairwise_map TocItem TocItem eraseEnd startLe
    (assignEnds l total)).mp h3

theorem assignEnds_chain :
    ∀ (l : List TocItem) (total : Int),
      List.Chain' (fun a b => a.page_end = max 0 (b.page_start - 1))
        (assignEnds l total) := by
  intro l
  induction l with
  | nil => intro _; exact List.chain'_nil
  | cons x xs ih =>
    intro total
    cases xs with
    | nil => exact List.chain'_singleton _
    | cons y rest =>
      obtain ⟨e, t, ht⟩ := assignEnds_shape y rest total
      rw [assignEnds, ht]
      exact List.chain'_cons.mpr ⟨rfl, ht ▸ ih total⟩

theorem assignEnds_getLast :
    ∀ (l : List TocItem) (total : Int) (x : TocItem),
      (assignEnds l total).getLast? = some x → x.page_end = max 0 (total - 1) := by
  intro l
  induction l with
  | nil => intro total x h; cases h
  | cons a xs ih =>
    intro total x h
    cases xs with
    | nil =>
      simp only [assignEnds, List.getLast?_singleton, Option.some.injEq] at h
      rw [← h]
    | cons y rest =>
      obtain ⟨e, t, ht⟩ := assignEnds_shape y rest total
      rw [assignEnds, ht, List.getLast?_cons_cons, ← ht] at h
      exact ih total x h

theorem assignEnds_idem :
    ∀ (l : List TocItem) (total : Int),
      assignEnds (assignEnds l total) total = assignEnds l total := by
  intro l
  induction l with
  | nil => intro _; rfl
  | cons x xs ih =>
    intro total
    cases xs with
    | nil => rfl
    | cons y rest =>
      obtain ⟨e, t, ht⟩ := assignEnds_shape y rest total
      rw [assignEnds, ht, assignEnds, ← ht, ih total]

/-! ### Claims C2, C6, C9: the page-end calculator -/

/-- C2 (confirmed): for a non-empty entry list the calculator succeeds; the
result has the same length, is ascending by start page, is the stable
permutation of the input (every start-page class keeps its original order and
multiplicity, compared with ends blanked), every entry's end is
`max 0 (next start - 1)` and the last entry's end is `max 0 (total - 1)` —
so the `max 0` clamp means equal start pages never yield a negative end. -/
theorem node_calc_page_end_spec (items : List TocItem) (total : Int)
    (h : items ≠ []) :
    ∃ r, calcPageEnd items total = .ok r ∧
      r.length = items.length ∧
      List.Pairwise startLe r ∧
      (∀ k : Int, (r.map eraseEnd).filter (fun x => x.page_start == k)
          = (items.map eraseEnd).filter (fun x => x.page_start == k)) ∧
      List.Chain' (fun a b => a.page_end = max 0 (b.page_start - 1)) r ∧
      (∀ x, r.getLast? = some x → x.page_end = max 0 (total - 1)) := by
  refine ⟨assignEnds (sortBy itemLt items) total, ?_, ?_, ?_, ?_, ?_, ?_⟩
  · simp [calcPageEnd, h]
  · rw [assignEnds_length, sortBy_length]
  · exact pairwise_start_assignEnds _ _ (pairwise_sortBy _)
  · intro k
    rw [assignEnds_map_eraseEnd, map_eraseEnd_sortBy, sortBy_filter_key]
  · exact assignEnds_chain _ _
  · exact fun x hx => assignEnds_getLast _ _ x hx

def item15 : TocItem := ⟨"제1장", "", "", "", "", 15, 0⟩

def item30 : TocItem := ⟨"제2장", "", "", "", "", 30, 0⟩

def item45 : TocItem := ⟨"제3장", "", "", "", "", 45, 0⟩

def items3 : List TocItem := [item15, item30, item45]

def ends3 : List TocItem :=
  [⟨"제1장", "", "", "", "", 15, 29⟩, ⟨"제2장", "", "", "", "", 30, 44⟩,
    ⟨"제3장", "", "", "", "", 45, 59⟩]

/-- C2 witness: the spec's example — starts `[15, 30, 45]` with
`total_pages = 60` resolve to ends `[29, 44, 59]`. -/
theorem node_calc_page_end_spec_witness :
    items3 ≠ [] ∧
    (∃ r, calcPageEnd items3 60 = .ok r ∧
      r.length = items3.length ∧
      List.Pairwise startLe r ∧
      (∀ k : Int, (r.map eraseEnd).filter (fun x => x.page_start == k)
          = (items3.map eraseEnd).filter (fun x => x.page_start == k)) ∧
      List.Chain' (fun a b => a.page_end = max 0 (b.page_start - 1)) r ∧
      (∀ x, r.getLast? = some x → x.page_end = max 0 ((60 : Int) - 1))) ∧
    calcPageEnd items3 60 = .ok ends3 :=
  ⟨by decide, node_calc_page_end_spec items3 60 (by decide), rfl⟩

/-- C6 (amended): the calculator fails exactly when the entry list is empty
(with the source's no-data message); non-empty entries always succeed —
in particular `total_pages ≤ 0` does NOT cause a failure (the source never
checks it; the last end merely clamps to 0). -/
theorem calcPageEnd_error_iff (items : List TocItem) (total : Int) :
    ((∃ r, calcPageEnd items total = .ok r) ↔ items ≠ []) ∧
    (items = [] → calcPageEnd items total = .error "계산할 목차 데이터가 없음") := by
  constructor
  · constructor
    · rintro ⟨r, hr⟩ rfl
      simp [calcPageEnd] at hr
    · intro h
      exact ⟨assignEnds (sortBy itemLt items) total, by simp [calcPageEnd, h]⟩
  · intro h
    simp [calcPageEnd, h]

def item5 : TocItem := ⟨"머리말", "", "", "", "", 5, 7⟩

/-- C6 counterexample: a non-empty entry list with `total_pages = 0 ≤ 0`
succeeds (the claim asserts the calculator fails whenever
`total_pages ≤ 0`); the lone entry's end clamps to 0. -/
theorem calcPageEnd_counterexample :
    (0 : Int) ≤ 0 ∧ [item5] ≠ [] ∧
    calcPageEnd [item5] 0 = .ok [⟨"머리말", "", "", "", "", 5, 0⟩] :=
  ⟨le_refl 0, by decide, rfl⟩

/-- C9 (confirmed): re-running the calculation on a list it has already
resolved (same `total_pages`; the resolved list is already ascending by start,
so the start-page ordering is unchanged) returns exactly the same list — same
end pages, same order. -/
theorem calcPageEnd_idempotent (items : List TocItem) (total : Int)
    (r : List TocItem) (hr : calcPageEnd items total = .ok r) :
    calcPageEnd r total = .ok r := by
  have hne : items ≠ [] := by
    intro h0
    rw [h0] at hr
    simp [calcPageEnd] at hr
  have hrdef : r = assignEnds (sortBy itemLt items) total := by
    have h2 := hr
    simp [calcPageEnd, hne] at h2
    exact h2.symm
  have hrne : r ≠ [] := by
    intro h0
    have hlen : r.length = items.length := by
      rw [hrdef, assignEnds_length, sortBy_length]
    rw [h0] at hlen
    exact hne (List.length_eq_zero.mp hlen.symm)
  have hpair : List.Pairwise startLe r := by
    rw [hrdef]
    exact pairwise_start_assignEnds _ _ (pairwise_sortBy _)
  have hok : calcPageEnd r total = .ok (assignEnds (sortBy itemLt r) total) := by
    simp [calcPageEnd, hrne]
  rw [hok, sortBy_eq_self r hpair, hrdef, assignEnds_idem]

/-- C9 witness: re-running on the resolved spec example returns it
unchanged. -/
theorem calcPageEnd_idempotent_witness :
    calcPageEnd items3 60 = .ok ends3 ∧ calcPageEnd ends3 60 = .ok ends3 :=
  ⟨rfl, calcPageEnd_idempotent items3 60 ends3 rfl⟩

/-! ## The LangGraph pipeline (models/state.py, langgraph/nodes.py, graph.py)

The `ParserState` TypedDict (total=False) is embedded as a structure; fields the
initial state does not populate are `Option`s (reading an absent key with
`state[...]` raises `KeyError`, modelled at the single place it can happen).
`logs`, timestamps, `processing_time` and file writes are elided (they never
influence control flow); `JobStatus` constants are the literal strings. -/

structure Span where
  page : Int
  line_id : Int
  span_id : Int
  text : String
  font_name : String
  font_size : Nat
  bold : Bool
deriving DecidableEq

structure TocParsed where
  status : Option Int
  message : Option String
  parsed : List TocItem
deriving DecidableEq

/-- Detection response (`toc_pages` field; `confidence`/`reason` are only
logged and elided). -/
structure DetectResult where
  toc_pages : List Int
deriving DecidableEq

/-- One final section: the merged dict `{**item, **meta}` of
`node_extract_ranges`.  The keys of `meta` are disjoint from the entry's keys,
so the merge is embedded as the entry plus the meta fields; a degraded record
(per-entry failure) only carries `text`, `title` and `error`, hence the
`Option` meta fields. -/
structure SectionRecord where
  item : TocItem
  text : String
  title : String
  para_count : Option Nat
  char_count : Option Nat
  has_table : Option Bool
  has_figure : Option Bool
  pages : Option (List Int)
  section_id : Option Nat
  error : Option String
deriving DecidableEq

/-- The external services consumed by the nodes, one oracle per call site; each
bundles the transport call and the JSON decoding of its reply (`Except.error`
is a raised exception or a decode failure, carrying the exception text). -/
structure Services where
  pdf_get_info : Except String Int
  detect_chat : List Nat → Except String DetectResult
  pdf_parse_layout_spans : List Int → Except String (List Span)
  parse_chat : List String → Except String TocParsed
  pdf_read : List Int → Except String String
  write_csv : Except String Unit

structure ParserState where
  doc_id : String
  total_pages : Option Nat
  window_size : Nat
  window_start : Nat
  toc_pages : List Int
  spans : Option (List Span)
  toc_parsed : Option TocParsed
  sections : Option (List SectionRecord)
  csv_path : Option String
  job_status : String
  error : Option String
deriving DecidableEq

/-- `create_initial_state` (state.py line 55). -/
def create_initial_state (doc_id : String) (window_size : Nat) : ParserState :=
  ⟨doc_id, none, window_size, 0, [], none, none, none, none, "idle", none⟩

/-- `update_state_status` (state.py line 80); log entry and timestamp elided. -/
def update_state_status (s : ParserState) (status : String) : ParserState :=
  { s with job_status := status }

/-- `set_error` (state.py line 126); the ERROR log entry is elided. -/
def set_error (s : ParserState) (msg : String) : ParserState :=
  { s with error := some msg, job_status := "failed" }

/-- `sorted(list(set(existing + detected)))` (nodes.py line 93): strictly
ascending duplicate-free merge, via sorted-unique insertion. -/
def insertSortedU (x : Int) : List Int → List Int
  | [] => [x]
  | y :: ys =>
    if x < y then x :: y :: ys
    else if x = y then y :: ys
    else y :: insertSortedU x ys

def dedupSortInt (l : List Int) : List Int := l.foldr insertSortedU []

/-- Python `str(KeyError("total_pages"))` is the quoted key; reading
`state["total_pages"]` before `node_doc_info` succeeded raises it, and the
node's `except` clause wraps it. -/
def keyErrTotalPages : String :=
  "목차 탐지 실패: " ++ String.mk [Char.ofNat 39] ++ "total_pages"
    ++ String.mk [Char.ofNat 39]

/-- `node_doc_info` (nodes.py line 24). -/
def node_doc_info (svc : Services) (s : ParserState) : ParserState :=
  match svc.pdf_get_info with
  | .error e => set_error s ("문서 정보 조회 실패: " ++ e)
  | .ok t =>
    if t ≤ 0 then set_error s ("유효하지 않은 문서: 페이지 수 " ++ toString t)
    else update_state_status { s with total_pages := some t.toNat } "running"

/-- `list(range(start, end))`. -/
def windowPages (start fin : Nat) : List Nat := List.range' start (fin - start)

/-- `node_detect_toc_window` (nodes.py line 53): one detection window.
Reads `state["total_pages"]` (KeyError if absent -- caught by the node's
`except`), selects `[start, min(start + ws, total))`, merges the reported
pages and advances the cursor to the window end. -/
def node_detect_toc_window (svc : Services) (s : ParserState) : ParserState :=
  match s.total_pages with
  | none => set_error s keyErrTotalPages
  | some total =>
    let start := s.window_start
    let e := min (start + s.window_size) total
    match svc.detect_chat (windowPages start e) with
    | .error msg => set_error s ("목차 탐지 응답 파싱 실패: " ++ msg)
    | .ok r =>
      { s with toc_pages := dedupSortInt (s.toc_pages ++ r.toc_pages),
               window_start := e }

/-- `cond_after_detect` (graph.py line 31). -/
def cond_after_detect (s : ParserState) : String :=
  if s.window_start < s.total_pages.getD 0 then "continue"
  else if s.toc_pages ≠ [] then "next"
  else "no_toc"

/-- `node_extract_spans` (nodes.py line 114). -/
def node_extract_spans (svc : Services) (s : ParserState) : ParserState :=
  if s.toc_pages = [] then set_error s "목차 페이지가 발견되지 않음"
  else
    match svc.pdf_parse_layout_spans s.toc_pages with
    | .error e => set_error s ("스팬 추출 실패: " ++ e)
    | .ok spans =>
      if spans = [] then set_error s "스팬 데이터 추출 실패"
      else update_state_status { s with spans := some spans } "detected"

/-- The span sort key `(page, line_id, span_id)` of `node_llm_parse_toc`. -/
def spanLt (a b : Span) : Bool :=
  a.page < b.page || (a.page = b.page && (a.line_id < b.line_id ||
    (a.line_id = b.line_id && a.span_id < b.span_id)))

/-- One serialized descriptor line of `node_llm_parse_toc` (skipped when the
trimmed text is shorter than 2 characters). -/
def spanBlock (sp : Span) : Option String :=
  let t := String.mk (trimChars sp.text.data)
  if t.length < 2 then none
  else some ("페이지 " ++ toString (sp.page + 1) ++ ", 라인 "
    ++ toString (sp.line_id + 1) ++ ": " ++ t ++ " [" ++ sp.font_name ++ ", "
    ++ toString sp.font_size ++ "pt" ++ (if sp.bold then "_Bold" else "") ++ "]")

def defaultTocParsed : TocParsed := ⟨none, none, []⟩

/-- `node_llm_parse_toc` (nodes.py line 152). -/
def node_llm_parse_toc (svc : Services) (s : ParserState) : ParserState :=
  let spans := s.spans.getD []
  if spans = [] then set_error s "파싱할 스팬 데이터가 없음"
  else
    let blocks := (sortBy spanLt spans).filterMap spanBlock
    if blocks = [] then set_error s "유효한 텍스트 블록이 없음"
    else
      match svc.parse_chat blocks with
      | .error e => set_error s ("목차 파싱 응답 파싱 실패: " ++ e)
      | .ok r =>
        if r.status.getD 500 ≠ 200 ∨ r.parsed = [] then
          set_error s (r.message.getD "목차 파싱 실패")
        else update_state_status { s with toc_parsed := some r } "parsed"

/-- `cond_after_parse` (graph.py line 56). -/
def cond_after_parse (s : ParserState) : String :=
  let tp := s.toc_parsed.getD defaultTocParsed
  if tp.status.getD 500 = 200 ∧ tp.parsed ≠ [] then "success" else "fail"

/-- `node_calc_page_end` (nodes.py line 233), via `calcPageEnd`. -/
def node_calc_page_end (s : ParserState) : ParserState :=
  let tp := s.toc_parsed.getD defaultTocParsed
  match calcPageEnd tp.parsed ((s.total_pages.getD 0 : Nat) : Int) with
  | .error e => set_error s e
  | .ok items2 => { s with toc_parsed := some { tp with parsed := items2 } }

/-- `list(range(a, b + 1))` over integers. -/
def intRange (a b : Int) : List Int :=
  (List.range (b - a + 1).toNat).map (fun k => a + k)

/-- The inclusive page list of one entry (single page when end < start). -/
def pagesOf (item : TocItem) : List Int :=
  if item.page_start ≤ item.page_end then intRange item.page_start item.page_end
  else [item.page_start]

/-- Title priority `jo > kwan > level_3 > level_2 > level_1 > fallback`
(Python `or`-chain: empty strings are falsy). -/
def resolveTitle (item : TocItem) (i : Nat) : String :=
  if item.jo ≠ "" then item.jo
  else if item.kwan ≠ "" then item.kwan
  else if item.level_3 ≠ "" then item.level_3
  else if item.level_2 ≠ "" then item.level_2
  else if item.level_1 ≠ "" then item.level_1
  else "섹션 " ++ toString i

/-- The degraded title `f"섹션 {i} (추출 실패)"`. -/
def failTitle (i : Nat) : String := "섹션 " ++ toString i ++ " (추출 실패)"

/-- `pure_content.count("\n\n") + 1 if pure_content.strip() else 0`. -/
def paraCount (s : String) : Nat :=
  if trimChars s.data ≠ [] then countSubstr ['\n', '\n'] s.data + 1 else 0

def hasTableStr (s : String) : Bool :=
  containsSub s.data "표".data || containsSub s.data "Table".data

def hasFigureStr (s : String) : Bool :=
  containsSub s.data "그림".data || containsSub s.data "Figure".data
    || containsSub s.data "도".data

/-- One iteration of the per-entry loop of `node_extract_ranges` (1-based `i`).
The only failable step inside the per-entry `try` is the external `pdf_read`
(the remaining steps are pure); its failure yields the degraded record
`{**item, "text": "", "title": f"섹션 {i} (추출 실패)", "error": str(e)}` --
note: no `section_id`, no counts, no flags, no page list. -/
def extractOne (svc : Services) (i : Nat) (item : TocItem) : SectionRecord :=
  let pages := pagesOf item
  match svc.pdf_read pages with
  | .error e => ⟨item, "", failTitle i, none, none, none, none, none, none, some e⟩
  | .ok full =>
    let title := resolveTitle item i
    let body := extract_content_after_title full title
    ⟨item, body, title, some (paraCount body),
      some (String.mk (trimChars body.data)).length, some (hasTableStr body),
      some (hasFigureStr body), some pages, some i, none⟩

/-- The `for i, item in enumerate(parsed_items, 1)` loop of
`node_extract_ranges`. -/
def extractSections (svc : Services) : Nat → List TocItem → List SectionRecord
  | _, [] => []
  | i, item :: rest => extractOne svc i item :: extractSections svc (i + 1) rest

/-- `node_extract_ranges` (nodes.py line 277). -/
def node_extract_ranges (svc : Services) (s : ParserState) : ParserState :=
  let items := (s.toc_parsed.getD defaultTocParsed).parsed
  if items = [] then set_error s "추출할 섹션 데이터가 없음"
  else
    update_state_status { s with sections := some (extractSections svc 1 items) }
      "extracted"

/-- `node_write_csv` (nodes.py line 361); the row building is pure, all file
writes are bundled into the `write_csv` oracle, and the output-directory
prefix of the CSV path is elided. -/
def node_write_csv (svc : Services) (s : ParserState) : ParserState :=
  if s.sections.getD [] = [] then set_error s "저장할 섹션 데이터가 없음"
  else
    match svc.write_csv with
    | .error e => set_error s ("CSV 저장 실패: " ++ e)
    | .ok _ =>
      update_state_status { s with csv_path := some (s.doc_id ++ "_parsed.csv") }
        "completed"

/-- `node_fail` (nodes.py line 448): marks the terminal failed status; it only
logs the error message (or the default "알 수 없는 오류" when no error was ever
set) and touches neither `error` nor any other field. -/
def node_fail (s : ParserState) : ParserState := update_state_status s "failed"

/-- The `detect_toc` self-loop: the graph enters `detect_toc` unconditionally
after `doc_info` and re-enters it while `cond_after_detect` says `continue`.
`fuel` bounds the iteration, standing in for LangGraph's recursion limit.  A
run whose loop reaches its own exit condition is modelled exactly (the
theorems about such runs supply sufficient fuel); for a loop that never exits
(a deterministically failing detection request leaves the cursor in place),
exhausted fuel returns the current state, whereas the source's
`run_parsing_flow` catches the recursion-limit exception and returns a fresh
failed state -- both are terminal failed states with no sections and no CSV
path, which is all the theorems below assert about that case. -/
def detectPhase (svc : Services) : Nat → ParserState → ParserState
  | 0, s => s
  | fuel + 1, s =>
    let s2 := node_detect_toc_window svc s
    if cond_after_detect s2 = "continue" then detectPhase svc fuel s2 else s2

/-- The conditional edge after `llm_toc` and the unconditional straight line
`calc_end → extract_ranges → write_csv` (graph.py lines 118-125). -/
def postParse (svc : Services) (s : ParserState) : ParserState :=
  if cond_after_parse s = "success" then
    node_write_csv svc (node_extract_ranges svc (node_calc_page_end s))
  else node_fail s

/-- The conditional edge after `detect_toc` (graph.py lines 108-112) together
with the unconditional edge `extract_spans → llm_toc`. -/
def postDetect (svc : Services) (s : ParserState) : ParserState :=
  if cond_after_detect s = "next" then
    postParse svc (node_llm_parse_toc svc (node_extract_spans svc s))
  else if cond_after_detect s = "no_toc" then node_fail s
  else s

/-- `run_parsing_flow` (graph.py line 150): initial state, then the compiled
graph `doc_info → detect_toc (loop) → … → END`. -/
def run_parsing_flow (svc : Services) (doc_id : String) (window_size : Nat)
    (fuel : Nat) : ParserState :=
  postDetect svc
    (detectPhase svc fuel (node_doc_info svc (create_initial_state doc_id window_size)))

/-! ## Claim C1: the detection-window cursor trace

`scanCursorsAux fuel total ws c` is the sequence of `window_start` values seen
by the `detect_toc` do-while loop from cursor `c`: the node always runs at
least once (the `doc_info → detect_toc` edge is unconditional), each call sets
the cursor to `min(cursor + window_size, total_pages)` and `cond_after_detect`
re-enters the node while `cursor < total_pages`.  The final cursor is
included, as in the claim's example `0, 5, 10, 12`. -/
def scanCursorsAux : Nat → Nat → Nat → Nat → List Nat
  | 0, total, ws, c => [c, min (c + ws) total]
  | f + 1, total, ws, c =>
    if min (c + ws) total < total then
      c :: scanCursorsAux f total ws (min (c + ws) total)
    else [c, min (c + ws) total]

def scanCursors (total ws : Nat) : List Nat := scanCursorsAux total total ws 0

/-- The half-open windows of a cursor trace, concatenated. -/
def windowsJoin (l : List Nat) : List Nat :=
  ((l.zip l.tail).map (fun p => List.range' p.1 (p.2 - p.1))).flatten

theorem windowsJoin_cons₂ (a b : Nat) (l : List Nat) :
    windowsJoin (a :: b :: l) = List.range' a (b - a) ++ windowsJoin (b :: l) := by
  simp [windowsJoin]

theorem scanCursorsAux_spec (total ws : Nat) (hw : 1 ≤ ws) :
    ∀ (fuel c : Nat), c < total → total - c ≤ fuel + 1 →
      (scanCursorsAux fuel total ws c).head? = some c ∧
      List.Chain' (· < ·) (scanCursorsAux fuel total ws c) ∧
      List.Chain' (fun a b => b = min (a + ws) total)
        (scanCursorsAux fuel total ws c) ∧
      (scanCursorsAux fuel total ws c).getLast? = some total ∧
      windowsJoin (scanCursorsAux fuel total ws c) = List.range' c (total - c) := by
  intro fuel
  induction fuel with
  | zero =>
    intro c hc hfc
    have hmin : min (c + ws) total = total := by omega
    refine ⟨rfl, ?_, ?_, ?_, ?_⟩
    · rw [scanCursorsAux, hmin]
      exact List.chain'_cons.mpr ⟨hc, List.chain'_singleton total⟩
    · rw [scanCursorsAux]
      exact List.chain'_cons.mpr ⟨rfl, List.chain'_singleton _⟩
    · rw [scanCursorsAux, hmin]
      rfl
    · rw [scanCursorsAux, hmin, windowsJoin_cons₂]
      simp [windowsJoin]
  | succ f ih =>
    intro c hc hfc
    by_cases hnxt : min (c + ws) total < total
    · have h1 : c < min (c + ws) total := by omega
      have h3 : total - min (c + ws) total ≤ f + 1 := by omega
      obtain ⟨ihh, ihc, ihs, ihl, ihw⟩ := ih (min (c + ws) total) hnxt h3
      have hunf : scanCursorsAux (f + 1) total ws c
          = c :: scanCursorsAux f total ws (min (c + ws) total) := by
        rw [scanCursorsAux, if_pos hnxt]
      cases hL : scanCursorsAux f total ws (min (c + ws) total) with
      | nil => rw [hL] at ihh; cases ihh
      | cons x L =>
        rw [hL] at ihh ihc ihs ihl ihw
        have hx : x = min (c + ws) total := by simpa using ihh
        subst hx
        rw [hunf, hL]
        refine ⟨rfl, List.chain'_cons.mpr ⟨h1, ihc⟩,
          List.chain'_cons.mpr ⟨rfl, ihs⟩, ?_, ?_⟩
        · rw [List.getLast?_cons_cons]
          exact ihl
        · rw [windowsJoin_cons₂, ihw]
          have hle : min (c + ws) total ≤ total := min_le_right _ _
          have := List.range'_append c (min (c + ws) total - c)
            (total - min (c + ws) total) 1
          rw [show c + 1 * (min (c + ws) total - c) = min (c + ws) total by omega,
            show total - min (c + ws) total + (min (c + ws) total - c) = total - c by omega]
            at this
          exact this
    · have hmin : min (c + ws) total = total := by omega
      have hunf : scanCursorsAux (f + 1) total ws c = [c, min (c + ws) total] := by
        rw [scanCursorsAux, if_neg hnxt]
      refine ⟨by rw [hunf]; rfl, ?_, ?_, ?_, ?_⟩
      · rw [hunf, hmin]
        exact List.chain'_cons.mpr ⟨hc, List.chain'_singleton total⟩
      · rw [hunf]
        exact List.chain'_cons.mpr ⟨rfl, List.chain'_singleton _⟩
      · rw [hunf, hmin]
        rfl
      · rw [hunf, hmin, windowsJoin_cons₂]
        simp [windowsJoin]

/-- C1 (amended, total_pages ≥ 1): repeated detection-window calls from cursor
0 produce a strictly increasing cursor trace, each call setting the next
cursor (and the node's `window_start`) to `min(cursor + window_size,
total_pages)`; the trace starts at 0, ends at `total_pages` (the final call's
window end), and the successive windows `[cursor, next)` concatenate to
exactly `[0, total_pages)` — no gaps, no overlaps. -/
theorem scan_cursor_spec (total ws : Nat) (ht : 1 ≤ total) (hw : 1 ≤ ws) :
    (scanCursors total ws).head? = some 0 ∧
    List.Chain' (· < ·) (scanCursors total ws) ∧
    List.Chain' (fun a b => b = min (a + ws) total) (scanCursors total ws) ∧
    (scanCursors total ws).getLast? = some total ∧
    windowsJoin (scanCursors total ws) = List.range total ∧
    (∀ (svc : Services) (s : ParserState) (t : Nat) (r : DetectResult),
      s.total_pages = some t →
      svc.detect_chat (windowPages s.window_start
        (min (s.window_start + s.window_size) t)) = .ok r →
      (node_detect_toc_window svc s).window_start
        = min (s.window_start + s.window_size) t) := by
  have h := scanCursorsAux_spec total ws hw total 0 ht (by omega)
  refine ⟨h.1, h.2.1, h.2.2.1, h.2.2.2.1, ?_, ?_⟩
  · rw [List.range_eq_range' total]
    simpa using h.2.2.2.2
  · intro svc s t r hst hc
    simp [node_detect_toc_window, hst, hc]

/-- C1 witness: the claim's example -- total_pages 12, window_size 5 gives the
cursor trace 0, 5, 10, 12, ending at 12 and tiling `[0, 12)`. -/
theorem scan_cursor_spec_witness :
    1 ≤ 12 ∧ 1 ≤ 5 ∧ scanCursors 12 5 = [0, 5, 10, 12] ∧
    (scanCursors 12 5).getLast? = some 12 ∧
    windowsJoin (scanCursors 12 5) = List.range 12 :=
  ⟨by omega, by omega, by decide,
    (scan_cursor_spec 12 5 (by omega) (by omega)).2.2.2.1,
    (scan_cursor_spec 12 5 (by omega) (by omega)).2.2.2.2.1⟩

/-- C1 counterexample: the claim also covers total_pages = 0 (it quantifies
over total_pages ≥ 0), but there the one unconditional detection call leaves
the cursor at min(0 + 1, 0) = 0: the trace 0, 0 is not strictly increasing. -/
theorem scan_cursor_counterexample :
    scanCursors 0 1 = [0, 0] ∧ ¬ List.Chain' (· < ·) (scanCursors 0 1) := by
  refine ⟨rfl, ?_⟩
  intro h
  have h0 : scanCursors 0 1 = [0, 0] := rfl
  rw [h0] at h
  exact absurd (List.chain'_cons.mp h).1 (lt_irrefl 0)

/-! ## Claim C8: the accumulated toc_pages list -/

theorem head_insertSortedU (x : Int) (l : List Int) :
    ∀ z, (insertSortedU x l).head? = some z → z = x ∨ l.head? = some z := by
  cases l with
  | nil => intro z hz; left; simpa [insertSortedU] using hz.symm
  | cons y ys =>
    intro z hz
    by_cases h1 : x < y
    · left; simp [insertSortedU, h1] at hz; omega
    · by_cases h2 : x = y
      · right; simpa [insertSortedU, h1, h2] using hz
      · right; simpa [insertSortedU, h1, h2] using hz

theorem chain_insertSortedU (x : Int) :
    ∀ l : List Int, List.Chain' (· < ·) l →
      List.Chain' (· < ·) (insertSortedU x l) := by
  intro l
  induction l with
  | nil => intro _; exact List.chain'_singleton x
  | cons y ys ih =>
    intro h
    obtain ⟨hy, hys⟩ := List.chain'_cons'.mp h
    by_cases h1 : x < y
    · rw [insertSortedU, if_pos h1]
      exact List.chain'_cons.mpr ⟨h1, h⟩
    · by_cases h2 : x = y
      · rw [insertSortedU, if_neg h1, if_pos h2]
        exact h
      · rw [insertSortedU, if_neg h1, if_neg h2]
        refine List.chain'_cons'.mpr ⟨?_, ih hys⟩
        intro z hz
        rcases head_insertSortedU x ys z hz with rfl | hz2
        · omega
        · exact hy z hz2

theorem chain_dedupSortInt : ∀ l : List Int, List.Chain' (· < ·) (dedupSortInt l) := by
  intro l
  induction l with
  | nil => exact List.chain'_nil
  | cons a rest ih => exact chain_insertSortedU a _ ih

theorem node_detect_toc_window_sorted (svc : Services) (s : ParserState)
    (h : List.Chain' (· < ·) s.toc_pages) :
    List.Chain' (· < ·) (node_detect_toc_window svc s).toc_pages := by
  unfold node_detect_toc_window
  split
  · exact h
  · dsimp only
    split
    · exact h
    · exact chain_dedupSortInt _

theorem detectPhase_sorted (svc : Services) :
    ∀ (fuel : Nat) (s : ParserState), List.Chain' (· < ·) s.toc_pages →
      List.Chain' (· < ·) (detectPhase svc fuel s).toc_pages := by
  intro fuel
  induction fuel with
  | zero => intro s h; exact h
  | succ f ih =>
    intro s h
    rw [detectPhase]
    split
    · exact ih _ (node_detect_toc_window_sorted svc s h)
    · exact node_detect_toc_window_sorted svc s h

/-- C8 (confirmed): the accumulated `toc_pages` list is strictly ascending
(hence sorted and duplicate-free) after every detection-window call and after
any number of loop iterations, whatever pages each response reports — the
merge `sorted(list(set(existing + detected)))` re-establishes the invariant,
error paths leave the list untouched, and the initial state starts it at
`[]`. -/
theorem toc_pages_sorted_dupfree (svc : Services) (s : ParserState)
    (h : List.Chain' (· < ·) s.toc_pages) :
    List.Chain' (· < ·) (node_detect_toc_window svc s).toc_pages ∧
    (∀ fuel, List.Chain' (· < ·) (detectPhase svc fuel s).toc_pages) ∧
    (∀ doc ws, (create_initial_state doc ws).toc_pages = []) :=
  ⟨node_detect_toc_window_sorted svc s h,
    fun fuel => detectPhase_sorted svc fuel s h,
    fun _ _ => rfl⟩

def svc8 : Services :=
  ⟨.ok 1, fun _ => .ok ⟨[2, 0, 2, 1]⟩, fun _ => .error "", fun _ => .error "",
    fun _ => .error "", .ok ()⟩

def s8 : ParserState :=
  { create_initial_state "doc" 5 with total_pages := some 9, toc_pages := [1, 3] }

/-- C8 witness: a window whose detection response [2, 0, 2, 1] overlaps and
duplicates the already-found pages [1, 3]; the merged list is the strictly
ascending [0, 1, 2, 3]. -/
theorem toc_pages_sorted_dupfree_witness :
    List.Chain' (· < ·) s8.toc_pages ∧
    (node_detect_toc_window svc8 s8).toc_pages = [0, 1, 2, 3] ∧
    List.Chain' (· < ·) (node_detect_toc_window svc8 s8).toc_pages := by
  have h13 : List.Chain' (· < ·) s8.toc_pages :=
    List.chain'_cons.mpr ⟨by norm_num, List.chain'_singleton _⟩
  exact ⟨h13, rfl, (toc_pages_sorted_dupfree svc8 s8 h13).1⟩

/-! ## Claim C4: node_extract_ranges -/

theorem extractSections_length (svc : Services) :
    ∀ (items : List TocItem) (k : Nat),
      (extractSections svc k items).length = items.length := by
  intro items
  induction items with
  | nil => intro _; rfl
  | cons x xs ih => intro k; simp [extractSections, ih (k + 1)]

theorem extractSections_get (svc : Services) :
    ∀ (items : List TocItem) (k i : Nat) (item : TocItem),
      items.get? i = some item →
      (extractSections svc k items).get? i = some (extractOne svc (k + i) item) := by
  intro items
  induction items with
  | nil => intro k i item h; cases h
  | cons x xs ih =>
    intro k i item h
    cases i with
    | zero =>
      obtain rfl : x = item := by simpa using h
      rfl
    | succ j =>
      have hj : xs.get? j = some item := by simpa using h
      have := ih (k + 1) j item hj
      rw [show k + 1 + j = k + (j + 1) by omega] at this
      simpa [extractSections] using this

/-- C4 (amended): section extraction never aborts on a per-entry failure and
returns one record per entry in outline order; a failing entry yields a
degraded record that keeps the original entry fields, has empty body text, the
fallback title `섹션 {i} (추출 실패)` and the failure's error string (present
but possibly empty); a successful entry's record carries `section_id` equal to
its 1-based outline position; a degraded record carries NO section id — so the
ids are unique but not dense 1..N when entries fail.  The node stores exactly
these records (in outline order) whenever the entry list is non-empty. -/
theorem node_extract_ranges_spec (svc : Services) (items : List TocItem) :
    (extractSections svc 1 items).length = items.length ∧
    (∀ i item, items.get? i = some item →
      (extractSections svc 1 items).get? i = some (extractOne svc (i + 1) item) ∧
      (∀ e, svc.pdf_read (pagesOf item) = .error e →
        extractOne svc (i + 1) item
          = ⟨item, "", failTitle (i + 1), none, none, none, none, none, none,
              some e⟩) ∧
      (∀ c, svc.pdf_read (pagesOf item) = .ok c →
        (extractOne svc (i + 1) item).item = item ∧
        (extractOne svc (i + 1) item).section_id = some (i + 1) ∧
        (extractOne svc (i + 1) item).error = none)) ∧
    (∀ s : ParserState, (s.toc_parsed.getD defaultTocParsed).parsed = items →
      items ≠ [] →
      (node_extract_ranges svc s).sections = some (extractSections svc 1 items)) := by
  refine ⟨extractSections_length svc items 1, ?_, ?_⟩
  · intro i item h
    refine ⟨?_, ?_, ?_⟩
    · rw [show i + 1 = 1 + i by omega]
      exact extractSections_get svc items 1 i item h
    · intro e he
      simp [extractOne, he]
    · intro c hc
      refine ⟨?_, ?_, ?_⟩ <;> simp [extractOne, hc]
  · intro s hs hne
    unfold node_extract_ranges
    rw [hs, if_neg hne]
    rfl

def itemA : TocItem := ⟨"제1장", "", "", "", "", 1, 2⟩

def itemB : TocItem := ⟨"제2장", "", "", "", "", 3, 4⟩

def svc4 : Services :=
  ⟨.ok 5, fun _ => .ok ⟨[]⟩, fun _ => .error "", fun _ => .error "",
    fun _ => .error "", .ok ()⟩

/-- C4 counterexample: when fetching fails for both entries (with an exception
whose text is empty), neither degraded record receives a `section_id` key and
both error strings are empty — the section ids are not "assigned 1..N,
unique and dense, regardless of which entries failed", and the error string is
not non-empty. -/
theorem node_extract_ranges_counterexample :
    (extractSections svc4 1 [itemA, itemB]).map (fun r => r.section_id)
      = [none, none] ∧
    (extractSections svc4 1 [itemA, itemB]).map (fun r => r.section_id)
      ≠ [some 1, some 2] ∧
    (extractSections svc4 1 [itemA, itemB]).map (fun r => r.error)
      = [some "", some ""] :=
  ⟨rfl, by decide, rfl⟩

def svc4w : Services :=
  ⟨.ok 5, fun _ => .ok ⟨[]⟩, fun _ => .error "", fun _ => .error "",
    fun pages => if pages = [1, 2] then .error "읽기 실패" else .ok "본문 내용",
    .ok ()⟩

/-- C4 witness: entry 1's fetch fails, entry 2's succeeds; the run still
produces 2 records in order — a degraded record (original fields, empty text,
fallback title, the error string, no id) and a successful record with
section id 2. -/
theorem node_extract_ranges_spec_witness :
    ([itemA, itemB].get? 0 = some itemA) ∧
    svc4w.pdf_read (pagesOf itemA) = .error "읽기 실패" ∧
    svc4w.pdf_read (pagesOf itemB) = .ok "본문 내용" ∧
    (extractSections svc4w 1 [itemA, itemB]).length = 2 ∧
    extractOne svc4w 1 itemA
      = ⟨itemA, "", failTitle 1, none, none, none, none, none, none,
          some "읽기 실패"⟩ ∧
    (extractOne svc4w 2 itemB).section_id = some 2 := by
  refine ⟨rfl, rfl, rfl, ?_, ?_, ?_⟩
  · exact (node_extract_ranges_spec svc4w [itemA, itemB]).1
  · exact ((node_extract_ranges_spec svc4w [itemA, itemB]).2.1 0 itemA rfl).2.1
      "읽기 실패" rfl
  · exact (((node_extract_ranges_spec svc4w [itemA, itemB]).2.1 1 itemB rfl).2.2
      "본문 내용" rfl).2.1

/-! ## Claim C5: detection exhausts all windows without finding TOC pages -/

theorem detectPhase_empty (svc : Services) (total : Nat)
    (hdet : ∀ w, svc.detect_chat w = .ok ⟨[]⟩) :
    ∀ (fuel : Nat) (s : ParserState), s.total_pages = some total →
      s.toc_pages = [] → 1 ≤ s.window_size → s.window_start < total →
      total - s.window_start ≤ fuel →
      detectPhase svc fuel s = { s with window_start := total } := by
  intro fuel
  induction fuel with
  | zero =>
    intro s _ _ _ hlt hf
    omega
  | succ f ih =>
    intro s htp htoc hws hlt hf
    obtain ⟨d, tp, ws, wst, tpg, sp, tpd, sec, cp, js, er⟩ := s
    have htp2 : tp = some total := htp
    have htoc2 : tpg = [] := htoc
    have hws2 : 1 ≤ ws := hws
    have hlt2 : wst < total := hlt
    have hf2 : total - wst ≤ f + 1 := hf
    subst htp2
    subst htoc2
    have hstep : node_detect_toc_window svc
        ⟨d, some total, ws, wst, [], sp, tpd, sec, cp, js, er⟩
        = ⟨d, some total, ws, min (wst + ws) total, [], sp, tpd, sec, cp, js, er⟩ := by
      unfold node_detect_toc_window
      dsimp only
      rw [hdet]
      rfl
    rw [detectPhase]
    dsimp only
    rw [hstep]
    by_cases hc : min (wst + ws) total < total
    · have hcond : cond_after_detect
          ⟨d, some total, ws, min (wst + ws) total, [], sp, tpd, sec, cp, js, er⟩
          = "continue" := by
        unfold cond_after_detect
        dsimp only
        rw [Option.getD_some, if_pos hc]
      rw [if_pos hcond]
      exact ih ⟨d, some total, ws, min (wst + ws) total, [], sp, tpd, sec, cp, js, er⟩
        rfl rfl hws2 hc (by dsimp only; omega)
    · have hmin : min (wst + ws) total = total := by omega
      have hcond : cond_after_detect
          ⟨d, some total, ws, min (wst + ws) total, [], sp, tpd, sec, cp, js, er⟩
          = "no_toc" := by
        unfold cond_after_detect
        dsimp only
        rw [Option.getD_some, if_neg hc]
        decide
      rw [hcond, if_neg (by decide), hmin]

/-- C5 (amended): when every detection response is valid-but-empty, the run
exhausts all windows (the cursor reaches total_pages), takes the `no_toc`
branch and terminates in `failed` — never in `completed` and with no CSV path
— but the recorded error message is NONE: the `no_toc` branch jumps straight
to `node_fail` without `set_error`, so no "no table of contents found" reason
is stored (the fail node merely logs a default unknown-error text). -/
theorem no_toc_run_fails (svc : Services) (doc : String) (ws fuel : Nat)
    (t : Int) (hinfo : svc.pdf_get_info = .ok t) (ht : 1 ≤ t)
    (hdet : ∀ w, svc.detect_chat w = .ok ⟨[]⟩)
    (hws : 1 ≤ ws) (hfuel : t.toNat ≤ fuel) :
    (run_parsing_flow svc doc ws fuel).job_status = "failed" ∧
    (run_parsing_flow svc doc ws fuel).error = none ∧
    (run_parsing_flow svc doc ws fuel).job_status ≠ "completed" ∧
    (run_parsing_flow svc doc ws fuel).csv_path = none := by
  have h1 : node_doc_info svc (create_initial_state doc ws)
      = ⟨doc, some t.toNat, ws, 0, [], none, none, none, none, "running", none⟩ := by
    unfold node_doc_info create_initial_state
    rw [hinfo]
    dsimp only
    rw [if_neg (by omega)]
    rfl
  have h2 : detectPhase svc fuel
      (⟨doc, some t.toNat, ws, 0, [], none, none, none, none, "running", none⟩
        : ParserState)
      = ⟨doc, some t.toNat, ws, t.toNat, [], none, none, none, none, "running",
          none⟩ := by
    exact detectPhase_empty svc t.toNat hdet fuel
      ⟨doc, some t.toNat, ws, 0, [], none, none, none, none, "running", none⟩
      rfl rfl hws (by show (0 : Nat) < t.toNat; omega)
      (by show t.toNat - 0 ≤ fuel; omega)
  have hcond : cond_after_detect
      (⟨doc, some t.toNat, ws, t.toNat, [], none, none, none, none, "running",
          none⟩ : ParserState) = "no_toc" := by
    unfold cond_after_detect
    dsimp only
    rw [Option.getD_some, if_neg (lt_irrefl t.toNat)]
    decide
  have h3 : run_parsing_flow svc doc ws fuel
      = ⟨doc, some t.toNat, ws, t.toNat, [], none, none, none, none, "failed",
          none⟩ := by
    unfold run_parsing_flow
    rw [h1, h2]
    unfold postDetect
    rw [hcond, if_neg (by decide), if_pos rfl]
    rfl
  rw [h3]
  exact ⟨rfl, rfl, by show ("failed" : String) ≠ "completed"; decide, rfl⟩

def svc5 : Services :=
  ⟨.ok 1, fun _ => .ok ⟨[]⟩, fun _ => .error "", fun _ => .error "",
    fun _ => .error "", .ok ()⟩

/-- C5 counterexample: a concrete run that exhausts its windows with zero TOC
pages ends `failed` with NO error message recorded (`error = none`) — in
particular its error message is not a TOC-not-found reason, contradicting the
claim's "carrying ... as its error message". -/
theorem no_toc_run_counterexample :
    (run_parsing_flow svc5 "doc" 5 2).job_status = "failed" ∧
    (run_parsing_flow svc5 "doc" 5 2).error = none :=
  ⟨rfl, rfl⟩

/-- C5 witness: the amended theorem applied to the concrete no-TOC run. -/
theorem no_toc_run_fails_witness :
    svc5.pdf_get_info = .ok 1 ∧ (∀ w, svc5.detect_chat w = .ok ⟨[]⟩) ∧
    (run_parsing_flow svc5 "doc" 5 2).job_status = "failed" ∧
    (run_parsing_flow svc5 "doc" 5 2).error = none ∧
    (run_parsing_flow svc5 "doc" 5 2).csv_path = none := by
  have h := no_toc_run_fails svc5 "doc" 5 2 1 rfl (by omega) (fun _ => rfl)
    (by omega) (by omega)
  exact ⟨rfl, fun _ => rfl, h.1, h.2.1, h.2.2.2⟩

/-! ## Claim C7: failure propagation -/

/-- `node_doc_info` fails: the info call raises, or reports a page count
`≤ 0`. -/
def docInfoFails (svc : Services) : Prop :=
  (∃ e, svc.pdf_get_info = .error e) ∨ ∃ t, svc.pdf_get_info = .ok t ∧ t ≤ 0

/-- C7 (amended): every fatal error kind still ends the run in a terminal
failed state, never completed, and no CSV path is ever recorded on a failure
path — but the run does not always move directly to failed, and the failing
stage's error is not always the one recorded:
(1) after a doc-info failure the unconditional `doc_info → detect_toc` edge
executes the detection node on the failed state, which overwrites the error
with its KeyError message, and the run then ends failed with no sections and
no CSV path;
(2) a failing detection request marks the run failed with the detection error
but leaves the cursor unchanged, so `cond_after_detect` still says `continue`
and the loop re-enters the same window instead of stopping;
(3) a run whose detection requests always fail ends failed (never completed)
with no sections and no CSV path — terminated only by the iteration bound,
not by a failure branch;
(4) after a span-extraction failure the outline-parse node still executes on
the failed state and overwrites the error with its own no-spans message
before the post-parse branch routes to the terminal failed node, sections and
CSV path untouched;
(5) a range failure cannot occur on the in-pipeline path: the post-parse
success branch guarantees non-empty entries, so the calculator succeeds and
changes neither status nor error;
(6) a persistence failure ends the run failed with the write error recorded,
no CSV path — but with the extracted sections still stored in the state;
(7) only the conditional branch after outline parsing moves directly to the
terminal failed node, with error, CSV path and sections untouched. -/
theorem failure_propagation (svc : Services) :
    (∀ (doc : String) (ws fuel : Nat), docInfoFails svc → 1 ≤ fuel →
      (run_parsing_flow svc doc ws fuel).job_status = "failed" ∧
      (run_parsing_flow svc doc ws fuel).error = some keyErrTotalPages ∧
      (run_parsing_flow svc doc ws fuel).csv_path = none ∧
      (run_parsing_flow svc doc ws fuel).sections = none) ∧
    (∀ (s : ParserState) (t : Nat) (e : String), s.total_pages = some t →
      s.window_start < t →
      svc.detect_chat (windowPages s.window_start
        (min (s.window_start + s.window_size) t)) = .error e →
      (node_detect_toc_window svc s).job_status = "failed" ∧
      (node_detect_toc_window svc s).error
        = some ("목차 탐지 응답 파싱 실패: " ++ e) ∧
      (node_detect_toc_window svc s).window_start = s.window_start ∧
      cond_after_detect (node_detect_toc_window svc s) = "continue") ∧
    (∀ (doc : String) (ws fuel : Nat) (t : Int) (e : String),
      svc.pdf_get_info = .ok t → 1 ≤ t →
      (∀ w, svc.detect_chat w = .error e) → 1 ≤ fuel →
      (run_parsing_flow svc doc ws fuel).job_status = "failed" ∧
      (run_parsing_flow svc doc ws fuel).job_status ≠ "completed" ∧
      (run_parsing_flow svc doc ws fuel).csv_path = none ∧
      (run_parsing_flow svc doc ws fuel).sections = none) ∧
    (∀ (s : ParserState) (e : String), s.spans = none → s.toc_parsed = none →
      s.toc_pages ≠ [] →
      (svc.pdf_parse_layout_spans s.toc_pages = .error e ∨
        svc.pdf_parse_layout_spans s.toc_pages = .ok []) →
      (postParse svc (node_llm_parse_toc svc (node_extract_spans svc s))).job_status
        = "failed" ∧
      (postParse svc (node_llm_parse_toc svc (node_extract_spans svc s))).error
        = some "파싱할 스팬 데이터가 없음" ∧
      (postParse svc (node_llm_parse_toc svc (node_extract_spans svc s))).csv_path
        = s.csv_path ∧
      (postParse svc (node_llm_parse_toc svc (node_extract_spans svc s))).sections
        = s.sections) ∧
    (∀ s : ParserState, cond_after_parse s = "success" →
      (node_calc_page_end s).job_status = s.job_status ∧
      (node_calc_page_end s).error = s.error) ∧
    (∀ (s : ParserState) (e : String), svc.write_csv = .error e →
      s.sections.getD [] ≠ [] →
      (node_write_csv svc s).job_status = "failed" ∧
      (node_write_csv svc s).error = some ("CSV 저장 실패: " ++ e) ∧
      (node_write_csv svc s).csv_path = s.csv_path ∧
      (node_write_csv svc s).sections = s.sections) ∧
    (∀ s : ParserState, cond_after_parse s = "fail" →
      postParse svc s = node_fail s ∧
      (node_fail s).job_status = "failed" ∧
      (node_fail s).error = s.error ∧
      (node_fail s).csv_path = s.csv_path ∧
      (node_fail s).sections = s.sections) := by
  refine ⟨?_, ?_, ?_, ?_, ?_, ?_, ?_⟩
  · -- (1) doc-info failure: detect_toc still runs and overwrites the error
    intro doc ws fuel hdf hfuel
    obtain ⟨f, rfl⟩ : ∃ f, fuel = f + 1 := ⟨fuel - 1, by omega⟩
    obtain ⟨m, h1⟩ : ∃ m, node_doc_info svc (create_initial_state doc ws)
        = ⟨doc, none, ws, 0, [], none, none, none, none, "failed", some m⟩ := by
      rcases hdf with ⟨e, he⟩ | ⟨t, hok, hle⟩
      · exact ⟨_, by unfold node_doc_info create_initial_state; rw [he]; rfl⟩
      · refine ⟨"유효하지 않은 문서: 페이지 수 " ++ toString t, ?_⟩
        unfold node_doc_info create_initial_state
        rw [hok]
        dsimp only
        rw [if_pos hle]
        rfl
    have hstep : node_detect_toc_window svc
        (⟨doc, none, ws, 0, [], none, none, none, none, "failed", some m⟩
          : ParserState)
        = ⟨doc, none, ws, 0, [], none, none, none, none, "failed",
            some keyErrTotalPages⟩ := rfl
    have hcond : cond_after_detect
        (⟨doc, none, ws, 0, [], none, none, none, none, "failed",
            some keyErrTotalPages⟩ : ParserState) = "no_toc" := rfl
    have h2 : detectPhase svc (f + 1)
        (⟨doc, none, ws, 0, [], none, none, none, none, "failed", some m⟩
          : ParserState)
        = ⟨doc, none, ws, 0, [], none, none, none, none, "failed",
            some keyErrTotalPages⟩ := by
      rw [detectPhase]
      rw [hstep, hcond, if_neg (by decide)]
    have h3 : run_parsing_flow svc doc ws (f + 1)
        = ⟨doc, none, ws, 0, [], none, none, none, none, "failed",
            some keyErrTotalPages⟩ := by
      unfold run_parsing_flow
      rw [h1, h2]
      unfold postDetect
      rw [hcond, if_neg (by decide), if_pos rfl]
      rfl
    rw [h3]
    exact ⟨rfl, rfl, rfl, rfl⟩
  · -- (2) one failing detection call: failed, error recorded, cursor frozen,
    -- and the branch predicate still says continue
    intro s t e hst hlt hde
    have hnode : node_detect_toc_window svc s
        = set_error s ("목차 탐지 응답 파싱 실패: " ++ e) := by
      unfold node_detect_toc_window
      rw [hst]
      dsimp only
      rw [hde]
    rw [hnode]
    refine ⟨rfl, rfl, rfl, ?_⟩
    unfold cond_after_detect set_error
    dsimp only
    rw [hst, Option.getD_some, if_pos hlt]
  · -- (3) detection requests always failing: the loop never exits on its own;
    -- the run still terminates failed with no sections and no CSV path
    intro doc ws fuel t e hinfo ht hdet hfuel
    obtain ⟨f, rfl⟩ : ∃ f, fuel = f + 1 := ⟨fuel - 1, by omega⟩
    have h1 : node_doc_info svc (create_initial_state doc ws)
        = ⟨doc, some t.toNat, ws, 0, [], none, none, none, none, "running",
            none⟩ := by
      unfold node_doc_info create_initial_state
      rw [hinfo]
      dsimp only
      rw [if_neg (by omega)]
      rfl
    have hstep1 : node_detect_toc_window svc
        (⟨doc, some t.toNat, ws, 0, [], none, none, none, none, "running",
            none⟩ : ParserState)
        = ⟨doc, some t.toNat, ws, 0, [], none, none, none, none, "failed",
            some ("목차 탐지 응답 파싱 실패: " ++ e)⟩ := by
      unfold node_detect_toc_window
      dsimp only
      rw [hdet]
      rfl
    have hstep2 : node_detect_toc_window svc
        (⟨doc, some t.toNat, ws, 0, [], none, none, none, none, "failed",
            some ("목차 탐지 응답 파싱 실패: " ++ e)⟩ : ParserState)
        = ⟨doc, some t.toNat, ws, 0, [], none, none, none, none, "failed",
            some ("목차 탐지 응답 파싱 실패: " ++ e)⟩ := by
      unfold node_detect_toc_window
      dsimp only
      rw [hdet]
      rfl
    have hcond2 : cond_after_detect
        (⟨doc, some t.toNat, ws, 0, [], none, none, none, none, "failed",
            some ("목차 탐지 응답 파싱 실패: " ++ e)⟩ : ParserState)
        = "continue" := by
      unfold cond_after_detect
      dsimp only
      rw [Option.getD_some, if_pos (by omega)]
    have hfix : ∀ g, detectPhase svc g
        (⟨doc, some t.toNat, ws, 0, [], none, none, none, none, "failed",
            some ("목차 탐지 응답 파싱 실패: " ++ e)⟩ : ParserState)
        = ⟨doc, some t.toNat, ws, 0, [], none, none, none, none, "failed",
            some ("목차 탐지 응답 파싱 실패: " ++ e)⟩ := by
      intro g
      induction g with
      | zero => rfl
      | succ g2 ih =>
        rw [detectPhase, hstep2, hcond2, if_pos rfl]
        exact ih
    have h3 : run_parsing_flow svc doc ws (f + 1)
        = ⟨doc, some t.toNat, ws, 0, [], none, none, none, none, "failed",
            some ("목차 탐지 응답 파싱 실패: " ++ e)⟩ := by
      unfold run_parsing_flow
      rw [h1, detectPhase, hstep1, hcond2, if_pos rfl, hfix f]
      unfold postDetect
      rw [hcond2, if_neg (by decide), if_neg (by decide)]
    rw [h3]
    exact ⟨rfl, by show ("failed" : String) ≠ "completed"; decide, rfl, rfl⟩
  · -- (4) span-extraction failure: llm_toc still executes and overwrites
    -- the error before the post-parse branch routes to node_fail
    intro s e hsp htpd htoc hfail
    obtain ⟨d, tp, ws, wst, tpg, spn, tpd2, sec, cp, js, er⟩ := s
    have hsp2 : spn = none := hsp
    have htpd2 : tpd2 = none := htpd
    have htoc2 : tpg ≠ [] := htoc
    subst hsp2
    subst htpd2
    obtain ⟨m2, hs2⟩ : ∃ m2, node_extract_spans svc
        (⟨d, tp, ws, wst, tpg, none, none, sec, cp, js, er⟩ : ParserState)
        = ⟨d, tp, ws, wst, tpg, none, none, sec, cp, "failed", some m2⟩ := by
      rcases hfail with h | h
      · refine ⟨"스팬 추출 실패: " ++ e, ?_⟩
        unfold node_extract_spans
        rw [if_neg htoc2]
        dsimp only
        rw [h]
        rfl
      · refine ⟨"스팬 데이터 추출 실패", ?_⟩
        unfold node_extract_spans
        rw [if_neg htoc2]
        dsimp only
        rw [h]
        rfl
    have hs3 : node_llm_parse_toc svc
        (⟨d, tp, ws, wst, tpg, none, none, sec, cp, "failed", some m2⟩
          : ParserState)
        = ⟨d, tp, ws, wst, tpg, none, none, sec, cp, "failed",
            some "파싱할 스팬 데이터가 없음"⟩ := rfl
    have hcp : cond_after_parse
        (⟨d, tp, ws, wst, tpg, none, none, sec, cp, "failed",
            some "파싱할 스팬 데이터가 없음"⟩ : ParserState) = "fail" := rfl
    rw [hs2, hs3]
    unfold postParse
    rw [hcp, if_neg (by decide)]
    exact ⟨rfl, rfl, rfl, rfl⟩
  · -- (5) the range stage cannot fail in-pipeline: the success branch
    -- guarantees non-empty entries
    intro s hc
    have hne : (s.toc_parsed.getD defaultTocParsed).parsed ≠ [] := by
      unfold cond_after_parse at hc
      by_cases hcc : (s.toc_parsed.getD defaultTocParsed).status.getD 500 = 200
          ∧ (s.toc_parsed.getD defaultTocParsed).parsed ≠ []
      · exact hcc.2
      · rw [if_neg hcc] at hc
        exact absurd hc (by decide)
    have hok : calcPageEnd (s.toc_parsed.getD defaultTocParsed).parsed
        ((s.total_pages.getD 0 : Nat) : Int)
        = .ok (assignEnds (sortBy itemLt (s.toc_parsed.getD defaultTocParsed).parsed)
            ((s.total_pages.getD 0 : Nat) : Int)) := by
      unfold calcPageEnd
      rw [if_neg hne]
    unfold node_calc_page_end
    dsimp only
    rw [hok]
    exact ⟨rfl, rfl⟩
  · -- (6) persistence failure: failed, error recorded, sections still stored
    intro s e hw hsec
    unfold node_write_csv
    rw [if_neg hsec, hw]
    exact ⟨rfl, rfl, rfl, rfl⟩
  · -- (7) the post-parse fail branch goes directly to the terminal fail node
    intro s hc
    refine ⟨?_, rfl, rfl, rfl, rfl⟩
    unfold postParse
    rw [hc, if_neg (by decide)]

def svc7 : Services :=
  ⟨.ok 0, fun _ => .ok ⟨[]⟩, fun _ => .error "", fun _ => .error "",
    fun _ => .error "", .ok ()⟩

/-- C7 counterexample: `doc_info` fails with "유효하지 않은 문서: 페이지 수 0",
but the run does not stop there with that error recorded: the detection node
still executes on the failed state (the `doc_info → detect_toc` edge is
unconditional) and overwrites the error with its own KeyError message, so the
terminal state's error differs from the failing stage's error. -/
theorem failure_propagation_counterexample :
    (node_doc_info svc7 (create_initial_state "doc" 5)).error
      = some "유효하지 않은 문서: 페이지 수 0" ∧
    (run_parsing_flow svc7 "doc" 5 1).error = some keyErrTotalPages ∧
    (run_parsing_flow svc7 "doc" 5 1).error
      ≠ some "유효하지 않은 문서: 페이지 수 0" ∧
    (run_parsing_flow svc7 "doc" 5 1).job_status = "failed" :=
  ⟨rfl, rfl, by decide, rfl⟩

def sFail : ParserState :=
  ⟨"doc", some 3, 5, 3, [0], none, some ⟨some 500, some "목차 파싱 실패", []⟩,
    none, none, "failed", some "목차 파싱 실패"⟩

/-- Oracles for the other fatal kinds exercised by the C7 witness: info
succeeds with 2 pages, every detection request fails, span extraction returns
an empty span list, and the CSV write fails. -/
def svcC7 : Services :=
  ⟨.ok 2, fun _ => .error "타임아웃", fun _ => .ok [], fun _ => .error "",
    fun _ => .error "", .error "디스크 오류"⟩

def sDet : ParserState :=
  ⟨"doc", some 2, 1, 0, [], none, none, none, none, "running", none⟩

def sSpanFail : ParserState :=
  ⟨"doc", some 2, 1, 2, [0], none, none, none, none, "running", none⟩

def secStored : SectionRecord :=
  ⟨itemA, "본문", "제1장", some 1, some 2, some false, some false, some [1, 2],
    some 1, none⟩

def sPersist : ParserState :=
  ⟨"doc", some 2, 1, 2, [0], none, none, some [secStored], none, "extracted",
    none⟩

/-- C7 witness: the amended theorem at concrete inputs for each fatal kind —
a failing doc-info run, a failing detection call (cursor frozen, branch says
continue), an always-failing-detection run, a span-extraction failure whose
error is overwritten by the parse node, a persistence failure that keeps the
stored sections, and a parse-failed state routed directly to the fail
node. -/
theorem failure_propagation_witness :
    docInfoFails svc7 ∧ cond_after_parse sFail = "fail" ∧
    (run_parsing_flow svc7 "doc" 5 1).error = some keyErrTotalPages ∧
    (run_parsing_flow svc7 "doc" 5 1).job_status = "failed" ∧
    (node_detect_toc_window svcC7 sDet).window_start = 0 ∧
    cond_after_detect (node_detect_toc_window svcC7 sDet) = "continue" ∧
    (run_parsing_flow svcC7 "doc" 1 3).job_status = "failed" ∧
    (run_parsing_flow svcC7 "doc" 1 3).sections = none ∧
    (postParse svcC7 (node_llm_parse_toc svcC7
        (node_extract_spans svcC7 sSpanFail))).error
      = some "파싱할 스팬 데이터가 없음" ∧
    (node_write_csv svcC7 sPersist).job_status = "failed" ∧
    (node_write_csv svcC7 sPersist).sections = some [secStored] ∧
    postParse svc7 sFail = node_fail sFail ∧
    (node_fail sFail).error = some "목차 파싱 실패" := by
  have hdf : docInfoFails svc7 := Or.inr ⟨0, rfl, le_refl 0⟩
  have h := failure_propagation svc7
  have hC := failure_propagation svcC7
  have h1 := h.1 "doc" 5 1 hdf (by omega)
  have h2 := hC.2.1 sDet 2 "타임아웃" rfl (by decide) rfl
  have h3 := hC.2.2.1 "doc" 1 3 2 "타임아웃" rfl (by omega) (fun _ => rfl)
    (by omega)
  have h4 := hC.2.2.2.1 sSpanFail "" rfl rfl (by decide) (Or.inr rfl)
  have h6 := hC.2.2.2.2.2.1 sPersist "디스크 오류" rfl (by decide)
  have h7 := h.2.2.2.2.2.2 sFail rfl
  exact ⟨hdf, rfl, h1.2.1, h1.1, h2.2.2.1, h2.2.2.2, h3.1, h3.2.2.2,
    h4.2.1, h6.1, h6.2.2.2, h7.1, rfl⟩
